import Mathlib

/-!
Verification of the get-link-spotify pipeline.

This file gives a shallow embedding, in Lean 4, of the core data model and
operations of the repository (src/spotify.py, src/cache.py, src/workflow.py,
src/proxy.py), and proves or refutes the specified properties about them.

Conventions of the embedding:
* Python floats are modelled as rationals (`ℚ`); Python ints as `Int`
  (with `Int.fdiv` for the floor-division operator `//`).
* Effectful calls to the network (the spotipy client, HTTP requests through a
  proxy) are modelled as explicit oracle parameters describing the outcome of
  each call; exceptions are modelled with `Except` / explicit outcome types.
* The timestamps used by the TTL cache are modelled as integers on an abstract
  clock; `datetime.now()` becomes an explicit `now` argument.
* Concurrency is modelled by quantifying over the order in which worker
  results are observed: the `as_completed` loop is embedded as a fold over an
  arbitrary completion order.
* Python string helpers (`str.split`, `int(str)`) are re-implemented by
  structural recursion over character lists so that all definitions evaluate
  inside the kernel.
-/

namespace GetLinkSpotify

/-! ## Duration parsing and similarity (src/spotify.py, lines 83-115) -/

/-- Model of Python `str.split(sep)` for a one-character separator. -/
def splitOnChar (sep : Char) : List Char → List (List Char)
  | [] => [[]]
  | c :: rest =>
    let r := splitOnChar sep rest
    if c = sep then [] :: r
    else
      match r with
      | [] => [[c]]
      | g :: gs => (c :: g) :: gs

/-- The whitespace characters stripped by Python `int(str)`. -/
def isPyWhitespace (c : Char) : Bool :=
  c = ' ' || c = '\t' || c = '\n' || c = '\r' || c = '\x0b' || c = '\x0c'

/-- Digit-string accumulator for the decimal parse underlying Python `int(str)`. -/
def parseDigitsAux : List Char → Nat → Option Nat
  | [], acc => some acc
  | c :: cs, acc =>
    if c.isDigit then parseDigitsAux cs (acc * 10 + (c.toNat - 48)) else none

/-- Parse a nonempty all-digit character list as a natural number. -/
def parseDigits : List Char → Option Nat
  | [] => none
  | c :: cs => parseDigitsAux (c :: cs) 0

/-- Model of Python `int(s)` on strings: optional surrounding whitespace,
optional sign, then one or more decimal digits; anything else raises
`ValueError`, modelled as `none`. -/
def pyInt (cs : List Char) : Option Int :=
  match (cs.dropWhile isPyWhitespace).reverse.dropWhile isPyWhitespace |>.reverse with
  | [] => none
  | c :: rest =>
    if c = '-' then (parseDigits rest).map (fun n => -(n : Int))
    else if c = '+' then (parseDigits rest).map (fun n => (n : Int))
    else (parseDigits (c :: rest)).map (fun n => (n : Int))

/-- `duration_to_seconds` (src/spotify.py lines 83-95): convert an `M:SS` or
`H:MM:SS` string to seconds; an empty string, malformed numerals
(`ValueError`) and any other number of `:`-separated fields give `None`. -/
def duration_to_seconds (duration_str : String) : Option Int :=
  if duration_str = "" then none
  else
    match (splitOnChar ':' duration_str.toList).map pyInt with
    | [some a, some b] => some (a * 60 + b)
    | [some a, some b, some c] => some (a * 3600 + b * 60 + c)
    | _ => none

/-- `duration_similarity` (src/spotify.py lines 98-115): proportional duration
similarity `1 - |diff| / max(zing_sec, spotify_sec)`, floored at 0, with a
neutral `0.5` when the chart duration is missing/zero or when the catalog
duration floor-divided to seconds is zero.  The local variables
`spotify_sec`, `diff` and `max_duration` of the source are inlined. -/
def duration_similarity (zing_duration : String) (spotify_ms : Int) : ℚ :=
  match duration_to_seconds zing_duration with
  | none => 1/2
  | some zing_sec =>
    if zing_sec = 0 then 1/2
    else if spotify_ms.fdiv 1000 = 0 then 1/2
    else max 0 (1 - ((|zing_sec - spotify_ms.fdiv 1000| : Int) : ℚ) /
      ((max zing_sec (spotify_ms.fdiv 1000) : Int) : ℚ))

/-- Floor division of a nonnegative integer by 1000 computes on `Nat`. -/
theorem cast_fdiv_thousand (n : Nat) :
    ((n : Int)).fdiv 1000 = ((n / 1000 : Nat) : Int) := by
  cases n <;> rfl

theorem duration_to_seconds_300 : duration_to_seconds "3:00" = some 180 := by decide

theorem fdiv_180000 : (180000 : Int).fdiv 1000 = 180 := by decide

/-- C8: duration_similarity returns a value in [0,1] (for the nonnegative
durations of the data model): a neutral 0.5 whenever either duration is
unknown or zero, and otherwise 1 - |delta seconds| / max(seconds) floored at
0; in particular duration_similarity "3:00" 180000 = 1.0,
duration_similarity "" x = 0.5 for any x, and duration_similarity "3:00" 0 = 0.5. -/
theorem c8_duration_similarity_spec (d : String) (ms : Int)
    (hms : 0 ≤ ms) (hd : 0 ≤ (duration_to_seconds d).getD 0) :
    (0 ≤ duration_similarity d ms ∧ duration_similarity d ms ≤ 1) ∧
    duration_similarity "3:00" 180000 = 1 ∧
    (∀ x : Int, duration_similarity "" x = 1/2) ∧
    duration_similarity "3:00" 0 = 1/2 ∧
    (duration_to_seconds d = none → duration_similarity d ms = 1/2) ∧
    (ms = 0 → duration_similarity d ms = 1/2) ∧
    (∀ z : Int, duration_to_seconds d = some z → z ≠ 0 → ms.fdiv 1000 ≠ 0 →
      duration_similarity d ms =
        max 0 (1 - ((|z - ms.fdiv 1000| : Int) : ℚ) /
          ((max z (ms.fdiv 1000) : Int) : ℚ))) := by
  refine ⟨?_, ?_, fun x => rfl, ?_, ?_, ?_, ?_⟩
  · -- range [0,1]
    unfold duration_similarity
    rcases hcase : duration_to_seconds d with _ | z
    · constructor <;> norm_num
    · rw [hcase] at hd
      simp only [Option.getD_some] at hd
      simp only
      by_cases hz : z = 0
      · simp only [hz, if_true, if_pos rfl]
        norm_num
      · simp only [hz, if_false, if_neg hz]
        by_cases hs : ms.fdiv 1000 = 0
        · simp only [hs, if_pos rfl]
          norm_num
        · simp only [if_neg hs]
          have hsnn : 0 ≤ ms.fdiv 1000 := by
            obtain ⟨n, rfl⟩ := Int.eq_ofNat_of_zero_le hms
            rw [cast_fdiv_thousand n]
            exact Int.ofNat_nonneg _
          have hzpos : 0 < z := lt_of_le_of_ne hd (Ne.symm hz)
          have hspos : 0 < ms.fdiv 1000 := lt_of_le_of_ne hsnn (Ne.symm hs)
          have hmaxpos : (0 : Int) < max z (ms.fdiv 1000) := lt_max_of_lt_left hzpos
          have hdiffle : |z - ms.fdiv 1000| ≤ max z (ms.fdiv 1000) := by
            rcases abs_cases (z - ms.fdiv 1000) with ⟨heq, _⟩ | ⟨heq, _⟩ <;> omega
          have hq1 : (0 : ℚ) ≤ ((|z - ms.fdiv 1000| : Int) : ℚ) /
              ((max z (ms.fdiv 1000) : Int) : ℚ) := by
            apply div_nonneg
            · exact_mod_cast abs_nonneg _
            · exact_mod_cast le_of_lt hmaxpos
          have hq2 : ((|z - ms.fdiv 1000| : Int) : ℚ) /
              ((max z (ms.fdiv 1000) : Int) : ℚ) ≤ 1 := by
            rw [div_le_one (by exact_mod_cast hmaxpos)]
            exact_mod_cast hdiffle
          refine ⟨le_max_left 0 _, max_le (by norm_num) (by linarith)⟩
  · -- duration_similarity "3:00" 180000 = 1
    unfold duration_similarity
    rw [duration_to_seconds_300]
    simp only [fdiv_180000]
    norm_num
  · -- duration_similarity "3:00" 0 = 1/2
    unfold duration_similarity
    rw [duration_to_seconds_300]
    norm_num
  · intro hnone
    unfold duration_similarity
    rw [hnone]
  · intro hms0
    unfold duration_similarity
    rcases duration_to_seconds d with _ | z
    · rfl
    · subst hms0
      by_cases hz : z = 0 <;> simp [hz]
  · intro z hz hz0 hsec
    unfold duration_similarity
    rw [hz]
    simp only [hz0, if_false, if_neg hz0, if_neg hsec]

/-- Witness for C8 at the concrete input d = "3:00", ms = 180000. -/
theorem c8_duration_similarity_spec_witness :
    (0 ≤ duration_similarity "3:00" 180000 ∧ duration_similarity "3:00" 180000 ≤ 1) ∧
    duration_similarity "3:00" 180000 = 1 ∧
    (∀ x : Int, duration_similarity "" x = 1/2) ∧
    duration_similarity "3:00" 0 = 1/2 ∧
    (duration_to_seconds "3:00" = none → duration_similarity "3:00" 180000 = 1/2) ∧
    ((180000 : Int) = 0 → duration_similarity "3:00" 180000 = 1/2) ∧
    (∀ z : Int, duration_to_seconds "3:00" = some z → z ≠ 0 → (180000 : Int).fdiv 1000 ≠ 0 →
      duration_similarity "3:00" 180000 =
        max 0 (1 - ((|z - (180000 : Int).fdiv 1000| : Int) : ℚ) /
          ((max z ((180000 : Int).fdiv 1000) : Int) : ℚ))) :=
  c8_duration_similarity_spec "3:00" 180000 (by decide) (by decide)

/-- C10: for every chart duration string and every catalog duration in
milliseconds between 1 and 999 inclusive, duration_similarity returns the
neutral 0.5 even though a nonzero catalog duration is present, because the
millisecond value is floor-divided by 1000 before the zero check. -/
theorem c10_subsecond_neutral (d : String) (ms : Int)
    (h1 : 1 ≤ ms) (h2 : ms ≤ 999) :
    duration_similarity d ms = 1/2 := by
  have hsec : ms.fdiv 1000 = 0 := by
    obtain ⟨n, rfl⟩ := Int.eq_ofNat_of_zero_le (le_trans (by norm_num) h1)
    rw [cast_fdiv_thousand n]
    have hn : n < 1000 := by
      have : (n : Int) < 1000 := lt_of_le_of_lt h2 (by norm_num)
      exact_mod_cast this
    rw [Nat.div_eq_of_lt hn]
    rfl
  unfold duration_similarity
  rcases duration_to_seconds d with _ | z
  · rfl
  · by_cases hz : z = 0 <;> simp [hz, hsec]

/-- Witness for C10 at d = "3:00", ms = 500. -/
theorem c10_subsecond_neutral_witness : duration_similarity "3:00" 500 = 1/2 :=
  c10_subsecond_neutral "3:00" 500 (by decide) (by decide)

/-! ## Data model (src/spotify.py search pipeline, src/models.py) -/

/-- One chart entry, as produced by the chart parser (ChartEntry of the spec;
the `song` dicts of src/spotify.py). -/
structure Song where
  position : Int
  name : String
  duration : String
  artists : String
  artist_list : List String
  url : String
  deriving DecidableEq, Inhabited

/-- One candidate track returned by the catalog search.  The nested JSON shape
(`artists` as a list of objects with a `name` field, `album.name`,
`external_urls.spotify`) is flattened to the fields the code reads. -/
structure Track where
  name : String
  artists : List String
  duration_ms : Int
  album : String
  external_url : String
  popularity : Int
  uri : String
  deriving DecidableEq, Inhabited

/-- The result dict built by `search_spotify_single` (src/spotify.py lines
226-237). -/
structure MatchResult where
  spotify_name : String
  spotify_artist : String
  spotify_album : String
  spotify_duration : String
  spotify_url : String
  popularity : Int
  track_uri : String
  match_score : ℚ
  deriving DecidableEq, Inhabited

/-! ## Similarity scoring (src/spotify.py, lines 76-150)

`fuzz.ratio` of the external rapidfuzz library is an oracle parameter
`ratio : String → String → ℚ` (its value on a pair of lowercased strings,
in 0..100). -/

/-- `string_similarity` (lines 76-80): 0 if either string is empty, otherwise
the lowercased fuzzy ratio scaled to 0..1. -/
def string_similarity (ratio : String → String → ℚ) (a b : String) : ℚ :=
  if a = "" ∨ b = "" then 0 else ratio a.toLower b.toLower / 100

/-- `artist_similarity` (lines 118-132): neutral 0.5 on an empty list on
either side, otherwise the best pairwise `string_similarity` over the cross
product, starting from 0. -/
def artist_similarity (ratio : String → String → ℚ)
    (zing_artists spotify_artists : List String) : ℚ :=
  if zing_artists = [] ∨ spotify_artists = [] then 1/2
  else
    zing_artists.foldl (fun best za =>
      spotify_artists.foldl (fun b sa => max b (string_similarity ratio za sa)) best) 0

/-- `calculate_match_score` (lines 135-150): plain average of title, artist
and duration similarity. -/
def calculate_match_score (ratio : String → String → ℚ) (song : Song) (track : Track) : ℚ :=
  (string_similarity ratio song.name track.name +
   artist_similarity ratio song.artist_list track.artists +
   duration_similarity song.duration track.duration_ms) / 3

/-! ## Retry policy (src/spotify.py, lines 153-169) -/

/-- Outcome of one `sp.search` call: a successful response, a
`SpotifyException` with http_status 429 (rate limited), a `SpotifyException`
with some other status, or any other exception. -/
inductive SearchOutcome (α : Type) where
  | ok (results : α)
  | rateLimited
  | apiErr (status : Int)
  | otherErr
  deriving DecidableEq

/-- An exception escaping `_search_with_retry`. -/
inductive RetryError where
  | api (status : Int)
  | other
  deriving DecidableEq

/-- Observable behaviour of one `_search_with_retry` call: its return value
or raised exception, the sequence of `time.sleep` delays it performed, and
how many times it invoked `sp.search`. -/
structure RetryRun (α : Type) where
  result : Except RetryError (Option α)
  sleeps : List ℚ
  calls : Nat

/-- `SPOTIFY_RETRY_ATTEMPTS` (src/config.py line 40). -/
def SPOTIFY_RETRY_ATTEMPTS : Nat := 3

/-- `SPOTIFY_RETRY_DELAY` (src/config.py line 41). -/
def SPOTIFY_RETRY_DELAY : ℚ := 2

/-- The retry loop of `_search_with_retry` from a given attempt index.  The
environment `env` gives the outcome of the `sp.search` call at each attempt.
On a 429 the code sleeps `base * 2 ^ attempt` and continues (even on the
last attempt, after which the loop ends and the function returns `None`); a
non-429 `SpotifyException` re-raises immediately; any other exception sleeps
the flat `base` and retries unless this was the last attempt, in which case
it re-raises. -/
def search_with_retry_from (env : Nat → SearchOutcome α) (base : ℚ)
    (total attempt : Nat) : RetryRun α :=
  if _h : attempt < total then
    match env attempt with
    | .ok r => ⟨.ok (some r), [], 1⟩
    | .rateLimited =>
      let rest := search_with_retry_from env base total (attempt + 1)
      ⟨rest.result, base * 2 ^ attempt :: rest.sleeps, rest.calls + 1⟩
    | .apiErr s => ⟨.error (.api s), [], 1⟩
    | .otherErr =>
      if attempt < total - 1 then
        let rest := search_with_retry_from env base total (attempt + 1)
        ⟨rest.result, base :: rest.sleeps, rest.calls + 1⟩
      else ⟨.error .other, [], 1⟩
  else ⟨.ok none, [], 0⟩
termination_by total - attempt

/-- `_search_with_retry` (src/spotify.py lines 153-169; the leading
underscore of the Python name is dropped). -/
def search_with_retry (env : Nat → SearchOutcome α) (base : ℚ) : RetryRun α :=
  search_with_retry_from env base SPOTIFY_RETRY_ATTEMPTS 0

/-- Whether a search outcome is a successful response. -/
def SearchOutcome.isOkay : SearchOutcome α → Bool
  | .ok _ => true
  | _ => false

theorem search_with_retry_from_calls_le (env : Nat → SearchOutcome α) (base : ℚ)
    (total : Nat) : ∀ attempt, (search_with_retry_from env base total attempt).calls ≤
      total - attempt := by
  intro attempt
  generalize hfuel : total - attempt = fuel
  induction fuel generalizing attempt with
  | zero =>
    rw [search_with_retry_from, dif_neg (by omega)]
  | succ n ih =>
    rw [search_with_retry_from, dif_pos (by omega)]
    have hn : total - (attempt + 1) = n := by omega
    cases env attempt with
    | ok r => dsimp only; omega
    | rateLimited =>
      dsimp only
      have := ih (attempt + 1) hn
      omega
    | apiErr s => dsimp only; omega
    | otherErr =>
      dsimp only
      by_cases hlast : attempt < total - 1
      · rw [if_pos hlast]
        dsimp only
        have := ih (attempt + 1) hn
        omega
      · rw [if_neg hlast]
        dsimp only
        omega

theorem search_with_retry_from_not_ok (env : Nat → SearchOutcome α) (base : ℚ)
    (total : Nat) (henv : ∀ k, (env k).isOkay = false) :
    ∀ attempt r, (search_with_retry_from env base total attempt).result ≠
      Except.ok (some r) := by
  intro attempt
  generalize hfuel : total - attempt = fuel
  induction fuel generalizing attempt with
  | zero =>
    intro r
    rw [search_with_retry_from, dif_neg (by omega)]
    simp
  | succ n ih =>
    intro r
    rw [search_with_retry_from, dif_pos (by omega)]
    have hn : total - (attempt + 1) = n := by omega
    cases hcase : env attempt with
    | ok t =>
      have := henv attempt
      rw [hcase] at this
      simp [SearchOutcome.isOkay] at this
    | rateLimited => dsimp only; exact ih (attempt + 1) hn r
    | apiErr s => dsimp only; simp
    | otherErr =>
      dsimp only
      by_cases hlast : attempt < total - 1
      · rw [if_pos hlast]
        dsimp only
        exact ih (attempt + 1) hn r
      · rw [if_neg hlast]
        dsimp only
        simp

/-! ## Single-song search (src/spotify.py, lines 172-242) -/

/-- Zero-pad an integer to two digits, as Python `f"{n:02d}"` does for the
values 0-9 (other values print as-is). -/
def pad2 (n : Int) : String :=
  if 0 ≤ n ∧ n < 10 then "0" ++ toString n else toString n

/-- The `M:SS` rendering of a catalog duration (src/spotify.py lines 218-224);
a falsy (zero) `duration_ms` renders as the empty string. -/
def formatSpotifyDuration (duration_ms : Int) : String :=
  if duration_ms ≠ 0 then
    toString (duration_ms.fdiv 60000) ++ ":" ++ pad2 ((duration_ms.fmod 60000).fdiv 1000)
  else ""

/-- Python `", ".join(names)`. -/
def joinComma : List String → String
  | [] => ""
  | [x] => x
  | x :: xs => x ++ ", " ++ joinComma xs

/-- The result dict built from the winning track (src/spotify.py lines 226-237). -/
def trackToResult (track : Track) (score : ℚ) : MatchResult :=
  { spotify_name := track.name
    spotify_artist := joinComma track.artists
    spotify_album := track.album
    spotify_duration := formatSpotifyDuration track.duration_ms
    spotify_url := track.external_url
    popularity := track.popularity
    track_uri := track.uri
    match_score := score }

/-- The best-track selection loop (src/spotify.py lines 207-214): running
best starts at `(None, -1)`, strictly higher scores win, ties keep the first
candidate. -/
def pickBest (ratio : String → String → ℚ) (song : Song) (tracks : List Track) :
    Option Track × ℚ :=
  tracks.foldl (fun acc track =>
    let score := calculate_match_score ratio song track
    if acc.2 < score then (some track, score) else acc) (none, -1)

/-- The three progressively looser query strings of `search_spotify_single`
(src/spotify.py lines 185-196). -/
def build_queries (song : Song) : List String :=
  match song.artist_list with
  | [] => [song.name]
  | a0 :: _ =>
    let n := song.name
    [s!"track:\"{n}\" artist:\"{a0}\"", s!"{n} {a0}", song.name]

/-- The per-query loop of `search_spotify_single` (src/spotify.py lines
198-242).  A raised exception from the retry helper is caught by the
`except` around the query body and the next query is tried; a `None` result
or an empty track list also falls through to the next query. -/
def searchQueries (ratio : String → String → ℚ)
    (env : String → Nat → SearchOutcome (List Track)) (song : Song) :
    List String → Option MatchResult
  | [] => none
  | q :: rest =>
    match (search_with_retry (env q) SPOTIFY_RETRY_DELAY).result with
    | .error _ => searchQueries ratio env song rest
    | .ok none => searchQueries ratio env song rest
    | .ok (some tracks) =>
      if tracks = [] then searchQueries ratio env song rest
      else
        match pickBest ratio song tracks with
        | (some best, score) => some (trackToResult best score)
        | (none, _) => searchQueries ratio env song rest

/-- `search_spotify_single` (src/spotify.py lines 172-242): try each query in
order; the first yielding candidate tracks determines the result; errors and
empty answers fall through; exhaustion gives `None`, never an exception. -/
def search_spotify_single (ratio : String → String → ℚ)
    (env : String → Nat → SearchOutcome (List Track)) (song : Song) :
    Option MatchResult :=
  searchQueries ratio env song (build_queries song)

/-- A sample chart entry used for concrete witnesses. -/
def sampleSong : Song :=
  { position := 1, name := "A", duration := "3:00", artists := "X",
    artist_list := ["X"], url := "" }

/-- C1 counterexample: with every attempt rate-limited, all 3 attempts are
exhausted, yet `_search_with_retry` returns `None` instead of propagating an
error — the rate-limit half of the claimed "after exhausting attempts the
error propagates" is false on the code (the function even sleeps once more
after the final attempt before returning). -/
theorem c1_retry_counterexample :
    (search_with_retry (α := List Track) (fun _ => SearchOutcome.rateLimited)
      SPOTIFY_RETRY_DELAY).calls = 3 ∧
    (search_with_retry (α := List Track) (fun _ => SearchOutcome.rateLimited)
      SPOTIFY_RETRY_DELAY).result = Except.ok none ∧
    (search_with_retry (α := List Track) (fun _ => SearchOutcome.rateLimited)
      SPOTIFY_RETRY_DELAY).sleeps.length = 3 := by
  refine ⟨?_, ?_, ?_⟩ <;>
    simp [search_with_retry, search_with_retry_from, SPOTIFY_RETRY_ATTEMPTS]

/-- C1 (amended): the underlying API call is attempted at most 3 times; a
rate-limited attempt sleeps base * 2 ^ attempt and retries, and on
rate-limit exhaustion the call returns no result (no error is raised, and
the code sleeps once more after the final attempt); other transient errors
sleep a flat base and retry, with the final failure raised; a non-429 API
error raises immediately without retrying; and `search_spotify_single`
treats every failure mode as "no match" — it returns `None` rather than
failing the batch. -/
theorem c1_amended_retry_policy :
    (∀ (env : Nat → SearchOutcome (List Track)) (base : ℚ),
      (search_with_retry env base).calls ≤ SPOTIFY_RETRY_ATTEMPTS) ∧
    (∀ base : ℚ, search_with_retry (α := List Track) (fun _ => .rateLimited) base =
      ⟨.ok none, [base * 2 ^ 0, base * 2 ^ 1, base * 2 ^ 2], 3⟩) ∧
    (∀ base : ℚ, search_with_retry (α := List Track) (fun _ => .otherErr) base =
      ⟨.error .other, [base, base], 3⟩) ∧
    (∀ (base : ℚ) (s : Int), search_with_retry (α := List Track) (fun _ => .apiErr s) base =
      ⟨.error (.api s), [], 1⟩) ∧
    (∀ (ratio : String → String → ℚ) (env : String → Nat → SearchOutcome (List Track))
      (song : Song), (∀ q k, (env q k).isOkay = false) →
      search_spotify_single ratio env song = none) := by
  refine ⟨?_, ?_, ?_, ?_, ?_⟩
  · intro env base
    have := search_with_retry_from_calls_le env base SPOTIFY_RETRY_ATTEMPTS 0
    simpa [search_with_retry] using this
  · intro base
    simp [search_with_retry, search_with_retry_from, SPOTIFY_RETRY_ATTEMPTS]
  · intro base
    simp [search_with_retry, search_with_retry_from, SPOTIFY_RETRY_ATTEMPTS]
  · intro base s
    simp [search_with_retry, search_with_retry_from, SPOTIFY_RETRY_ATTEMPTS]
  · intro ratio env song henv
    unfold search_spotify_single
    generalize build_queries song = qs
    induction qs with
    | nil => rfl
    | cons q rest ih =>
      rw [searchQueries]
      rcases hres : (search_with_retry (env q) SPOTIFY_RETRY_DELAY).result with e | r
      · exact ih
      · rcases r with _ | tracks
        · exact ih
        · exact absurd hres (search_with_retry_from_not_ok (env q) SPOTIFY_RETRY_DELAY
            SPOTIFY_RETRY_ATTEMPTS (fun k => henv q k) 0 tracks)

/-- Witness for C1 (amended) at a rate-limited environment and the sample song. -/
theorem c1_amended_retry_policy_witness :
    (search_with_retry (α := List Track) (fun _ => SearchOutcome.rateLimited)
      SPOTIFY_RETRY_DELAY).calls ≤ SPOTIFY_RETRY_ATTEMPTS ∧
    search_spotify_single (fun _ _ => 0) (fun _ _ => SearchOutcome.rateLimited)
      sampleSong = none :=
  ⟨c1_amended_retry_policy.1 _ SPOTIFY_RETRY_DELAY,
   c1_amended_retry_policy.2.2.2.2 _ _ sampleSong (fun _ _ => rfl)⟩

/-! ## The TTL file cache (src/cache.py, class FileCache)

The persisted JSON file is modelled as a second association list
`persisted`; `_save` copies the in-memory mapping into it.  The cached_at
ISO timestamp is an integer on the abstract clock, `none` standing for a
malformed timestamp (which `_is_expired` treats as already expired).
Python dicts are association lists whose `set` overwrites in place,
preserving insertion order. -/

/-- One cache entry: `{ "value": ..., "cached_at": ... }`. -/
structure CacheEntry (α : Type) where
  value : α
  cached_at : Option Int
  deriving DecidableEq

/-- The state of one `FileCache` instance: the in-memory `_cache` dict, the
persisted file contents, the pending-write counter, the TTL and the batch
size. -/
structure FileCache (α : Type) where
  entries : List (String × CacheEntry α)
  persisted : List (String × CacheEntry α)
  pending_writes : Nat
  ttl_minutes : Int
  batch_size : Nat
  deriving DecidableEq

/-- `FileCache._is_expired` (src/cache.py lines 54-61): expired when
`now > cached_at + ttl`; a malformed timestamp counts as expired. -/
def isExpired (now ttl : Int) (e : CacheEntry α) : Bool :=
  match e.cached_at with
  | none => true
  | some t => now > t + ttl

/-- Insert-or-overwrite on a Python dict, keeping the original position of an
overwritten key. -/
def upsert (k : String) (e : CacheEntry α) :
    List (String × CacheEntry α) → List (String × CacheEntry α)
  | [] => [(k, e)]
  | (k2, e2) :: rest =>
    if k2 = k then (k, e) :: rest else (k2, e2) :: upsert k e rest

/-- Python `del d[key]` (removes the single binding of `key`). -/
def removeKey (k : String) :
    List (String × CacheEntry α) → List (String × CacheEntry α)
  | [] => []
  | (k2, e2) :: rest =>
    if k2 = k then rest else (k2, e2) :: removeKey k rest

/-- `FileCache.get` (src/cache.py lines 63-72): absent key gives `None`; an
expired entry is deleted (without saving) and gives `None`; otherwise the
value is returned and the state is unchanged. -/
def FileCache.get (c : FileCache α) (now : Int) (k : String) :
    Option α × FileCache α :=
  match c.entries.lookup k with
  | none => (none, c)
  | some e =>
    if isExpired now c.ttl_minutes e then
      (none, { c with entries := removeKey k c.entries })
    else (some e.value, c)

/-- `FileCache.set` (src/cache.py lines 74-84): overwrite with a fresh
timestamp, bump the pending-write counter, and persist the whole mapping
(resetting the counter) once the counter reaches the batch size. -/
def FileCache.set (c : FileCache α) (now : Int) (k : String) (v : α) :
    FileCache α :=
  let entries := upsert k ⟨v, some now⟩ c.entries
  let pending := c.pending_writes + 1
  if pending ≥ c.batch_size then
    { c with entries := entries, persisted := entries, pending_writes := 0 }
  else { c with entries := entries, pending_writes := pending }

/-- `FileCache.flush` (src/cache.py lines 86-91): persist only when writes
are pending. -/
def FileCache.flush (c : FileCache α) : FileCache α :=
  if c.pending_writes > 0 then
    { c with persisted := c.entries, pending_writes := 0 }
  else c

/-- `FileCache.keys` (src/cache.py lines 124-131): the keys whose entries are
not expired. -/
def FileCache.keys (c : FileCache α) (now : Int) : List String :=
  (c.entries.filter (fun p => ¬ isExpired now c.ttl_minutes p.2)).map (fun p => p.1)

theorem lookup_upsert_self (k : String) (e : CacheEntry α)
    (l : List (String × CacheEntry α)) : (upsert k e l).lookup k = some e := by
  induction l with
  | nil => simp [upsert, List.lookup_cons]
  | cons p rest ih =>
    rcases p with ⟨k2, e2⟩
    by_cases hk : k2 = k
    · simp [upsert, hk, List.lookup_cons]
    · rw [upsert, if_neg hk, List.lookup_cons,
        show (k == k2) = false by simp [Ne.symm hk]]
      exact ih

theorem lookup_removeKey_self (k : String) (l : List (String × CacheEntry α))
    (hnodup : (l.map (fun p => p.1)).Nodup) : (removeKey k l).lookup k = none := by
  induction l with
  | nil => rfl
  | cons p rest ih =>
    rcases p with ⟨k2, e2⟩
    simp only [List.map_cons, List.nodup_cons] at hnodup
    by_cases hk : k2 = k
    · subst hk
      rw [removeKey, if_pos rfl]
      rw [List.lookup_eq_none_iff]
      intro p hp
      have : p.1 ≠ k2 := by
        intro heq
        exact hnodup.1 (List.mem_map.2 ⟨p, hp, heq⟩)
      simpa using Ne.symm this
    · rw [removeKey, if_neg hk, List.lookup_cons,
        show (k == k2) = false by simp [Ne.symm hk]]
      exact ih hnodup.2

theorem mem_keys_iff (c : FileCache α) (now : Int) (k : String) :
    k ∈ c.keys now ↔ ∃ e, (k, e) ∈ c.entries ∧ isExpired now c.ttl_minutes e = false := by
  unfold FileCache.keys
  simp only [List.mem_map, List.mem_filter]
  constructor
  · rintro ⟨⟨k2, e⟩, ⟨hmem, hexp⟩, rfl⟩
    exact ⟨e, hmem, by simpa using hexp⟩
  · rintro ⟨e, hmem, hexp⟩
    exact ⟨(k, e), ⟨hmem, by simpa using hexp⟩, rfl⟩

/-- C5: set(k, v) followed immediately by get(k) returns v; once the age of
the entry exceeds the TTL, get(k) returns absent, deletes the entry as a
side effect of the lookup, and (provided the mapping has no duplicate keys,
an invariant of dict-backed state) k no longer appears in the keys()
enumeration. -/
theorem c5_cache_ttl (c : FileCache α) (now late : Int) (k : String) (v : α)
    (httl : 0 ≤ c.ttl_minutes)
    (hnodup : (((c.set now k v).entries).map (fun p => p.1)).Nodup)
    (hlate : late > now + c.ttl_minutes) :
    ((c.set now k v).get now k).1 = some v ∧
    (((c.set now k v).get late k).1 = none ∧
     (((c.set now k v).get late k).2.entries).lookup k = none ∧
     k ∉ ((c.set now k v).get late k).2.keys late) := by
  have hlook : ((c.set now k v).entries).lookup k = some ⟨v, some now⟩ := by
    unfold FileCache.set
    by_cases hb : c.pending_writes + 1 ≥ c.batch_size <;>
      simp [hb, lookup_upsert_self]
  have httlset : (c.set now k v).ttl_minutes = c.ttl_minutes := by
    unfold FileCache.set
    by_cases hb : c.pending_writes + 1 ≥ c.batch_size <;> simp [hb]
  have hget : ∀ t : Int, (c.set now k v).get t k =
      if isExpired t c.ttl_minutes ⟨v, some now⟩ = true then
        (none, { c.set now k v with entries := removeKey k (c.set now k v).entries })
      else (some v, c.set now k v) := by
    intro t
    unfold FileCache.get
    rw [hlook]
    dsimp only
    rw [httlset]
  have hfresh : isExpired now c.ttl_minutes ⟨v, some now⟩ = false := by
    simp only [isExpired, decide_eq_false_iff_not, not_lt]
    omega
  have hstale : isExpired late c.ttl_minutes ⟨v, some now⟩ = true := by
    simp only [isExpired, decide_eq_true_eq]
    omega
  refine ⟨?_, ?_, ?_, ?_⟩
  · rw [hget now, hfresh]
    simp
  · rw [hget late, hstale]
    simp
  · rw [hget late, hstale]
    simp only [if_pos rfl]
    exact lookup_removeKey_self k _ hnodup
  · rw [hget late, hstale]
    simp only [if_pos rfl]
    rw [mem_keys_iff]
    rintro ⟨e, hmem, -⟩
    have hlk := lookup_removeKey_self k ((c.set now k v).entries) hnodup
    rw [List.lookup_eq_none_iff] at hlk
    have := hlk (k, e) hmem
    simp at this

/-- An empty cache with TTL 5 and batch size 3, for concrete witnesses. -/
def sampleCache : FileCache Nat :=
  { entries := [], persisted := [], pending_writes := 0, ttl_minutes := 5, batch_size := 3 }

/-- Witness for C5 on an empty cache with TTL 5, set at time 0, read at
times 0 and 6. -/
theorem c5_cache_ttl_witness :
    ((sampleCache.set 0 "k" 7).get 0 "k").1 = some 7 ∧
    ((((sampleCache.set 0 "k" 7).get 6 "k").1 = none ∧
     ((((sampleCache.set 0 "k" 7).get 6 "k").2.entries).lookup "k" = none) ∧
     "k" ∉ ((sampleCache.set 0 "k" 7).get 6 "k").2.keys 6)) :=
  c5_cache_ttl sampleCache 0 6 "k" 7 (by decide) (by decide) (by decide)

/-- Fold a list of (time, key, value) writes through `FileCache.set`. -/
def applySets (c : FileCache α) (ws : List (Int × String × α)) : FileCache α :=
  ws.foldl (fun acc w => acc.set w.1 w.2.1 w.2.2) c

theorem applySets_below_batch (ws : List (Int × String × α)) :
    ∀ c : FileCache α, c.pending_writes + ws.length < c.batch_size →
      (applySets c ws).persisted = c.persisted ∧
      (applySets c ws).pending_writes = c.pending_writes + ws.length ∧
      (applySets c ws).batch_size = c.batch_size ∧
      (applySets c ws).entries =
        ws.foldl (fun l w => upsert w.2.1 ⟨w.2.2, some w.1⟩ l) c.entries := by
  induction ws with
  | nil => intro c _; exact ⟨rfl, by simp [applySets], rfl, rfl⟩
  | cons w rest ih =>
    intro c hlt
    have hstep : c.set w.1 w.2.1 w.2.2 =
        { c with entries := upsert w.2.1 ⟨w.2.2, some w.1⟩ c.entries,
                 pending_writes := c.pending_writes + 1 } := by
      unfold FileCache.set
      rw [if_neg (by simp at hlt ⊢; omega)]
    have hrec := ih (c.set w.1 w.2.1 w.2.2) (by rw [hstep]; simp at hlt ⊢; omega)
    have happ : applySets c (w :: rest) = applySets (c.set w.1 w.2.1 w.2.2) rest := rfl
    rw [happ]
    refine ⟨?_, ?_, ?_, ?_⟩
    · rw [hrec.1, hstep]
    · rw [hrec.2.1, hstep]
      simp [List.length_cons]
      omega
    · rw [hrec.2.2.1, hstep]
    · rw [hrec.2.2.2, hstep, List.foldl_cons]

theorem applySets_hits_batch (ws : List (Int × String × α)) :
    ∀ c : FileCache α, ws ≠ [] → c.pending_writes + ws.length = c.batch_size →
      (applySets c ws).persisted = (applySets c ws).entries ∧
      (applySets c ws).pending_writes = 0 := by
  induction ws with
  | nil => intro c h _; exact absurd rfl h
  | cons w rest ih =>
    intro c _ hsum
    rcases rest with _ | ⟨w2, rest2⟩
    · have happ : applySets c [w] = c.set w.1 w.2.1 w.2.2 := rfl
      rw [happ]
      unfold FileCache.set
      rw [if_pos (by simp at hsum; omega)]
      exact ⟨rfl, rfl⟩
    · have hlt : ¬ c.pending_writes + 1 ≥ c.batch_size := by
        simp [List.length_cons] at hsum
        omega
      have hstep : c.set w.1 w.2.1 w.2.2 =
          { c with entries := upsert w.2.1 ⟨w.2.2, some w.1⟩ c.entries,
                   pending_writes := c.pending_writes + 1 } := by
        unfold FileCache.set
        rw [if_neg hlt]
      have happ : applySets c (w :: w2 :: rest2) =
          applySets (c.set w.1 w.2.1 w.2.2) (w2 :: rest2) := rfl
      rw [happ]
      refine ih (c.set w.1 w.2.1 w.2.2) (by simp) ?_
      rw [hstep]
      simp [List.length_cons] at hsum ⊢
      omega

/-- C6: with the pending-write counter at zero and a batch size B ≥ 1
(default 10), exactly B set calls persist the whole mapping and reset the
counter to zero; B - 1 set calls leave the persisted file untouched (it may
lag behind the in-memory mapping), and a single flush() then persists the
in-memory mapping immediately. -/
theorem c6_cache_batch_flush (c : FileCache α) (ws bs : List (Int × String × α))
    (hpend : c.pending_writes = 0) (hbatch : 0 < c.batch_size)
    (hsync : c.persisted = c.entries)
    (hlen : ws.length = c.batch_size) (hlenb : bs.length = c.batch_size - 1) :
    ((applySets c ws).persisted = (applySets c ws).entries ∧
     (applySets c ws).pending_writes = 0) ∧
    ((applySets c bs).persisted = c.persisted ∧
     ((applySets c bs).flush).persisted = (applySets c bs).entries ∧
     ((applySets c bs).flush).pending_writes = 0) := by
  constructor
  · refine applySets_hits_batch ws c ?_ (by omega)
    intro hnil
    subst hnil
    simp at hlen
    omega
  · have hbelow := applySets_below_batch bs c (by omega)
    refine ⟨hbelow.1, ?_, ?_⟩
    · unfold FileCache.flush
      by_cases hp : (applySets c bs).pending_writes > 0
      · rw [if_pos hp]
      · rw [if_neg hp]
        have := hbelow.2.1
        have hz : bs.length = 0 := by omega
        rw [List.length_eq_zero] at hz
        subst hz
        simpa [applySets] using hsync
    · unfold FileCache.flush
      by_cases hp : (applySets c bs).pending_writes > 0
      · rw [if_pos hp]
      · rw [if_neg hp]
        omega

/-- Witness for C6 on an empty cache with batch size 3: three writes persist
everything and reset the counter; two writes leave the file untouched until
a flush. -/
theorem c6_cache_batch_flush_witness :
    ((applySets sampleCache [(0, "a", 1), (0, "b", 2), (0, "c", 3)]).persisted =
       (applySets sampleCache [(0, "a", 1), (0, "b", 2), (0, "c", 3)]).entries ∧
     (applySets sampleCache [(0, "a", 1), (0, "b", 2), (0, "c", 3)]).pending_writes = 0) ∧
    ((applySets sampleCache [(0, "a", 1), (0, "b", 2)]).persisted = sampleCache.persisted ∧
     ((applySets sampleCache [(0, "a", 1), (0, "b", 2)]).flush).persisted =
       (applySets sampleCache [(0, "a", 1), (0, "b", 2)]).entries ∧
     ((applySets sampleCache [(0, "a", 1), (0, "b", 2)]).flush).pending_writes = 0) :=
  c6_cache_batch_flush sampleCache [(0, "a", 1), (0, "b", 2), (0, "c", 3)]
    [(0, "a", 1), (0, "b", 2)] (by decide) (by decide) (by decide) (by decide) (by decide)

/-! ## The cached search (src/spotify.py lines 245-269, src/cache.py class
SpotifyCache)

The value stored in the Spotify search cache is `Option MatchResult`:
`some r` is a match dict, `none` is the empty-dict `{}` negative sentinel.
The spotipy client inside `search_spotify_single` is abstracted, at this
level, to its observable behaviour `single : Song → Option MatchResult`;
the returned `Nat` counts the invocations of `search_spotify_single`. -/

/-- Lowercase an ASCII letter, the fragment of Python `str.lower()` the
chart keys use. -/
def pyLowerChar (c : Char) : Char :=
  if 65 ≤ c.toNat ∧ c.toNat ≤ 90 then Char.ofNat (c.toNat + 32) else c

/-- Python `str.lower()` (on the ASCII fragment). -/
def pyLower (s : String) : String := String.mk (s.toList.map pyLowerChar)

/-- Python `str.strip()`. -/
def pyStrip (s : String) : String :=
  String.mk ((s.toList.dropWhile isPyWhitespace).reverse.dropWhile isPyWhitespace |>.reverse)

/-- `SpotifyCache.make_key` (src/cache.py lines 161-164). -/
def make_key (song_name artist : String) : String :=
  pyStrip (pyLower song_name) ++ "|" ++ pyStrip (pyLower artist)

/-- The search cache: value type is match-or-negative-sentinel. -/
abbrev SpotifyCache := FileCache (Option MatchResult)

/-- `SpotifyCache.get_song` (src/cache.py lines 166-169). -/
def get_song (c : SpotifyCache) (now : Int) (song_name artist : String) :
    Option (Option MatchResult) × SpotifyCache :=
  c.get now (make_key song_name artist)

/-- `SpotifyCache.set_song` (src/cache.py lines 171-174). -/
def set_song (c : SpotifyCache) (now : Int) (song_name artist : String)
    (v : Option MatchResult) : SpotifyCache :=
  c.set now (make_key song_name artist) v

/-- The value `search_spotify` hands back: a match dict, the `{}` sentinel
read from the cache, or Python `None`. -/
inductive SpotifyVal where
  | found (r : MatchResult)
  | empty
  | nil
  deriving DecidableEq

/-- Reading a cached value back as the dict `search_spotify` returns. -/
def cachedToVal : Option MatchResult → SpotifyVal
  | some r => .found r
  | none => .empty

/-- `search_spotify` (src/spotify.py lines 245-269): cache hit (match or
sentinel) short-circuits; a miss runs the single search and writes the
outcome back — the dict on success, `{}` on failure. -/
def search_spotify (single : Song → Option MatchResult) (c : SpotifyCache)
    (now : Int) (song : Song) : (SpotifyVal × Bool) × SpotifyCache × Nat :=
  let g := get_song c now song.name song.artists
  match g.1 with
  | some v => ((cachedToVal v, true), g.2, 0)
  | none =>
    match single song with
    | some r => ((.found r, false), set_song g.2 now song.name song.artists (some r), 1)
    | none => ((.nil, false), set_song g.2 now song.name song.artists none, 1)

/-- The `{}`-to-`None` conversion done by `search_with_index`
(src/spotify.py lines 293-295). -/
def publicResult : SpotifyVal → Option MatchResult
  | .found r => some r
  | _ => none

/-- `search_with_index` (src/spotify.py lines 291-297): run the cached
search, convert the `{}` sentinel to `None`, and tag the result with the
entry index (the throttling sleep has no observable effect here). -/
def search_with_index (single : Song → Option MatchResult) (c : SpotifyCache)
    (now : Int) (index : Nat) (song : Song) :
    (Nat × Option MatchResult × Bool) × SpotifyCache × Nat :=
  let s := search_spotify single c now song
  ((index, publicResult s.1.1, s.1.2), s.2)

theorem set_lookup_self (c : FileCache α) (now : Int) (k : String) (v : α) :
    ((c.set now k v).entries).lookup k = some ⟨v, some now⟩ := by
  unfold FileCache.set
  by_cases hb : c.pending_writes + 1 ≥ c.batch_size <;>
    simp [hb, lookup_upsert_self]

theorem set_ttl (c : FileCache α) (now : Int) (k : String) (v : α) :
    (c.set now k v).ttl_minutes = c.ttl_minutes := by
  unfold FileCache.set
  by_cases hb : c.pending_writes + 1 ≥ c.batch_size <;> simp [hb]

theorem get_ttl (c : FileCache α) (t : Int) (k : String) :
    ((c.get t k).2).ttl_minutes = c.ttl_minutes := by
  unfold FileCache.get
  rcases c.entries.lookup k with _ | e
  · rfl
  · by_cases he : isExpired t c.ttl_minutes e = true <;> simp [he]

/-- C4: for an entry whose first search yields no match, two consecutive
searches (the second within TTL) perform exactly one remote search
(`search_spotify_single`) call in total: the negative outcome is written to
the cache as the empty sentinel, the second lookup is a cache hit that makes
no remote call, and the public result of the second search is still absent. -/
theorem c4_negative_caching (single : Song → Option MatchResult) (c : SpotifyCache)
    (now1 now2 : Int) (song : Song)
    (hmiss : (get_song c now1 song.name song.artists).1 = none)
    (hnone : single song = none)
    (httl : ¬ now2 > now1 + c.ttl_minutes) :
    (search_with_index single c now1 0 song).2.2 = 1 ∧
    (((search_with_index single c now1 0 song).2.1.entries).lookup
      (make_key song.name song.artists) = some ⟨none, some now1⟩) ∧
    (search_with_index single ((search_with_index single c now1 0 song).2.1)
      now2 1 song).1.2.2 = true ∧
    (search_with_index single ((search_with_index single c now1 0 song).2.1)
      now2 1 song).1.2.1 = none ∧
    (search_with_index single ((search_with_index single c now1 0 song).2.1)
      now2 1 song).2.2 = 0 := by
  have h1 : search_spotify single c now1 song =
      ((.nil, false),
       set_song (get_song c now1 song.name song.artists).2 now1
         song.name song.artists none, 1) := by
    unfold search_spotify
    dsimp only
    rw [hmiss, hnone]
  have hw1 : search_with_index single c now1 0 song =
      ((0, none, false),
       set_song (get_song c now1 song.name song.artists).2 now1
         song.name song.artists none, 1) := by
    unfold search_with_index
    dsimp only
    rw [h1]
    rfl
  set c1 := set_song (get_song c now1 song.name song.artists).2 now1
    song.name song.artists none with hc1
  have hlook : (c1.entries).lookup (make_key song.name song.artists) =
      some ⟨none, some now1⟩ := by
    rw [hc1]
    exact set_lookup_self _ now1 _ none
  have httl1 : c1.ttl_minutes = c.ttl_minutes := by
    rw [hc1]
    unfold set_song get_song
    rw [set_ttl, get_ttl]
  have hget2 : get_song c1 now2 song.name song.artists = (some none, c1) := by
    unfold get_song FileCache.get
    rw [hlook]
    dsimp only
    rw [httl1]
    have : isExpired now2 c.ttl_minutes
        (⟨none, some now1⟩ : CacheEntry (Option MatchResult)) = false := by
      simp only [isExpired, decide_eq_false_iff_not, not_lt]
      omega
    rw [this]
    simp
  have h2 : search_spotify single c1 now2 song = ((.empty, true), c1, 0) := by
    unfold search_spotify
    dsimp only
    rw [hget2]
    rfl
  refine ⟨?_, ?_, ?_, ?_, ?_⟩
  · rw [hw1]
  · rw [hw1]
    exact hlook
  · rw [hw1]
    show (search_with_index single c1 now2 1 song).1.2.2 = true
    unfold search_with_index
    dsimp only
    rw [h2]
  · rw [hw1]
    show (search_with_index single c1 now2 1 song).1.2.1 = none
    unfold search_with_index
    dsimp only
    rw [h2]
    rfl
  · rw [hw1]
    show (search_with_index single c1 now2 1 song).2.2 = 0
    unfold search_with_index
    dsimp only
    rw [h2]

/-- An empty Spotify search cache with the default 24h TTL (1440 minutes)
and batch size 10. -/
def emptySpotifyCache : SpotifyCache :=
  { entries := [], persisted := [], pending_writes := 0, ttl_minutes := 1440, batch_size := 10 }

/-- Witness for C4: an always-unmatched remote search against an empty
cache, both lookups at time 0. -/
theorem c4_negative_caching_witness :
    (search_with_index (fun _ => none) emptySpotifyCache 0 0 sampleSong).2.2 = 1 ∧
    (((search_with_index (fun _ => none) emptySpotifyCache 0 0 sampleSong).2.1.entries).lookup
      (make_key sampleSong.name sampleSong.artists) = some ⟨none, some 0⟩) ∧
    (search_with_index (fun _ => none)
      ((search_with_index (fun _ => none) emptySpotifyCache 0 0 sampleSong).2.1)
      0 1 sampleSong).1.2.2 = true ∧
    (search_with_index (fun _ => none)
      ((search_with_index (fun _ => none) emptySpotifyCache 0 0 sampleSong).2.1)
      0 1 sampleSong).1.2.1 = none ∧
    (search_with_index (fun _ => none)
      ((search_with_index (fun _ => none) emptySpotifyCache 0 0 sampleSong).2.1)
      0 1 sampleSong).2.2 = 0 :=
  c4_negative_caching (fun _ => none) emptySpotifyCache 0 0 sampleSong rfl rfl (by decide)

/-! ## The concurrent search phase (src/spotify.py, lines 272-318)

`search_songs_concurrent` submits one `search_with_index` future per song
(in `enumerate` order) and consumes them with `as_completed`, writing each
result into `results[index]` and firing the progress callback.  The
nondeterministic completion order of the pool is an explicit `schedule`
parameter (the list of entry indices in completion order); worker bodies are
serialized along that schedule, which is sound because the shared cache
serializes all its operations under one mutex. -/

/-- One progress-callback invocation: `(index, result, was_cached)`. -/
abbrev SearchEvent := Nat × Option MatchResult × Bool

/-- The `as_completed` loop (src/spotify.py lines 305-315) over the list of
completed future outcomes: write `results[index] = result` into the
pre-sized slot list and record the callback sequence. -/
def asCompletedLoop (n : Nat) (completed : List SearchEvent) :
    List (Option MatchResult) × List SearchEvent :=
  completed.foldl (fun acc ev => (acc.1.set ev.1 ev.2.1, acc.2 ++ [ev]))
    (List.replicate n none, [])

/-- The worker pool: run each scheduled future body in completion order,
threading the shared cache, and count remote calls. -/
def runWorkers (single : Song → Option MatchResult) (c : SpotifyCache) (now : Int)
    (songs : List Song) (schedule : List Nat) :
    List SearchEvent × SpotifyCache × Nat :=
  schedule.foldl (fun acc i =>
    let r := search_with_index single acc.2.1 now i (songs.getD i default)
    (acc.1 ++ [r.1], r.2.1, acc.2.2 + r.2.2)) ([], c, 0)

/-- `search_songs_concurrent` (src/spotify.py lines 272-318): outcome of the
whole phase under a given completion schedule — the slot-assembled results,
the progress-callback trace, the final cache and the remote-call count. -/
def search_songs_concurrent (single : Song → Option MatchResult) (c : SpotifyCache)
    (now : Int) (songs : List Song) (schedule : List Nat) :
    List (Option MatchResult) × List SearchEvent × SpotifyCache × Nat :=
  let w := runWorkers single c now songs schedule
  let a := asCompletedLoop songs.length w.1
  (a.1, a.2, w.2)

/-! ## Final result assembly (src/models.py, src/workflow.py lines 116-138) -/

/-- `SyncResult` (src/models.py lines 9-76). -/
structure SyncResult where
  rank : Int
  song_name : String
  artists : String
  duration : String
  zing_url : String
  spotify_name : String
  spotify_artist : String
  spotify_album : String
  spotify_duration : String
  spotify_url : String
  popularity : Int
  match_score : ℚ
  track_uri : String
  deriving DecidableEq, Inhabited

/-- `SyncResult.found` (src/models.py lines 30-33): truthiness of the
matched URL. -/
def SyncResult.found (r : SyncResult) : Bool := r.spotify_url ≠ ""

/-- `SyncResult.from_song_and_spotify` (src/models.py lines 53-76); `none`
models the Python `None` no-match result. -/
def SyncResult.from_song_and_spotify (song : Song) (spotify_result : Option MatchResult) :
    SyncResult :=
  match spotify_result with
  | none =>
    { rank := song.position, song_name := song.name, artists := song.artists,
      duration := song.duration, zing_url := song.url,
      spotify_name := "", spotify_artist := "", spotify_album := "",
      spotify_duration := "", spotify_url := "", popularity := 0,
      match_score := 0, track_uri := "" }
  | some m =>
    { rank := song.position, song_name := song.name, artists := song.artists,
      duration := song.duration, zing_url := song.url,
      spotify_name := m.spotify_name, spotify_artist := m.spotify_artist,
      spotify_album := m.spotify_album, spotify_duration := m.spotify_duration,
      spotify_url := m.spotify_url, popularity := m.popularity,
      match_score := m.match_score, track_uri := m.track_uri }

/-- `build_sync_results` (src/workflow.py lines 116-138): zip the songs with
their search results in order, collecting the truthy track URIs along the
way. -/
def build_sync_results (songs : List Song) (spotify_results : List (Option MatchResult)) :
    List SyncResult × List String :=
  (List.zip songs spotify_results).foldl
    (fun acc p =>
      (acc.1 ++ [SyncResult.from_song_and_spotify p.1 p.2],
       if (SyncResult.from_song_and_spotify p.1 p.2).track_uri ≠ "" then
         acc.2 ++ [(SyncResult.from_song_and_spotify p.1 p.2).track_uri]
       else acc.2))
    ([], [])

theorem asCompletedLoop_aux (completed : List SearchEvent) :
    ∀ (init : List (Option MatchResult)) (acc : List SearchEvent),
      completed.foldl (fun acc ev => (acc.1.set ev.1 ev.2.1, acc.2 ++ [ev])) (init, acc) =
        (completed.foldl (fun l ev => l.set ev.1 ev.2.1) init, acc ++ completed) := by
  induction completed with
  | nil => intro init acc; simp
  | cons ev rest ih =>
    intro init acc
    rw [List.foldl_cons, List.foldl_cons, ih]
    simp

theorem asCompletedLoop_eq (n : Nat) (completed : List SearchEvent) :
    asCompletedLoop n completed =
      (completed.foldl (fun l ev => l.set ev.1 ev.2.1) (List.replicate n none), completed) := by
  unfold asCompletedLoop
  rw [asCompletedLoop_aux]
  simp

theorem foldl_set_getElem (f : Nat → Option MatchResult) (order : List Nat) :
    ∀ (init : List (Option MatchResult)) (j : Nat),
      (order.foldl (fun l i => l.set i (f i)) init)[j]? =
        if j ∈ order ∧ j < init.length then some (f j) else init[j]? := by
  induction order with
  | nil => intro init j; simp
  | cons i rest ih =>
    intro init j
    rw [List.foldl_cons, ih]
    by_cases hmem : j ∈ rest ∧ j < init.length
    · rw [if_pos (by simpa [List.length_set] using hmem)]
      rw [if_pos ⟨List.mem_cons_of_mem _ hmem.1, hmem.2⟩]
    · rw [if_neg (by simpa [List.length_set] using hmem)]
      by_cases hji : j = i
      · subst hji
        by_cases hlen : j < init.length
        · rw [List.getElem?_set_self hlen]
          rw [if_pos ⟨List.mem_cons_self j rest, hlen⟩]
        · have h1 : init.length ≤ j := le_of_not_lt hlen
          rw [if_neg (fun h => hlen h.2)]
          rw [List.getElem?_eq_none (by simpa [List.length_set] using h1),
            List.getElem?_eq_none h1]
      · rw [List.getElem?_set_ne (Ne.symm hji)]
        rw [if_neg ?_]
        rintro ⟨hmemc, hlen⟩
        rcases List.mem_cons.1 hmemc with h | h
        · exact hji h
        · exact hmem ⟨h, hlen⟩

theorem build_fold_fst (l : List (Song × Option MatchResult)) :
    ∀ acc : List SyncResult × List String,
      (l.foldl (fun acc p =>
        (acc.1 ++ [SyncResult.from_song_and_spotify p.1 p.2],
         if (SyncResult.from_song_and_spotify p.1 p.2).track_uri ≠ "" then
           acc.2 ++ [(SyncResult.from_song_and_spotify p.1 p.2).track_uri]
         else acc.2)) acc).1 =
        acc.1 ++ l.map (fun p => SyncResult.from_song_and_spotify p.1 p.2) := by
  induction l with
  | nil => intro acc; simp
  | cons p rest ih =>
    intro acc
    rw [List.foldl_cons, ih]
    simp

theorem map_zip_from (songs : List Song) :
    ∀ results : List (Option MatchResult),
      (List.zip songs results).map (fun p => SyncResult.from_song_and_spotify p.1 p.2) =
        List.zipWith SyncResult.from_song_and_spotify songs results := by
  induction songs with
  | nil => intro results; simp
  | cons s rest ih =>
    intro results
    rcases results with _ | ⟨r, rs⟩
    · simp
    · simp [ih]

/-- C3: whatever the order in which the dispatched futures complete
(any permutation of the indices, reverse order included), the assembled
output list holds each entry's own result at its original position — slot
`i` receives the outcome of entry `i` — and `build_sync_results` merges
songs and results position-wise, preserving input order. -/
theorem c3_order_preservation (n : Nat) (outcome : Nat → Option MatchResult × Bool)
    (order : List Nat) (hperm : order.Perm (List.range n)) :
    (asCompletedLoop n (order.map (fun i => (i, outcome i)))).1 =
      (List.range n).map (fun i => (outcome i).1) ∧
    (∀ (songs : List Song) (results : List (Option MatchResult)),
      (build_sync_results songs results).1 =
        List.zipWith SyncResult.from_song_and_spotify songs results) := by
  constructor
  · rw [asCompletedLoop_eq]
    dsimp only
    rw [List.foldl_map]
    apply List.ext_getElem?
    intro j
    rw [foldl_set_getElem (fun i => (outcome i).1) order (List.replicate n none) j]
    by_cases hj : j < n
    · rw [if_pos ⟨hperm.mem_iff.2 (List.mem_range.2 hj), by simpa using hj⟩]
      rw [List.getElem?_map, List.getElem?_range hj]
      rfl
    · rw [if_neg (fun h => hj (by simpa using h.2))]
      rw [List.getElem?_eq_none (by simpa using le_of_not_lt hj),
        List.getElem?_eq_none (by simpa using le_of_not_lt hj)]
  · intro songs results
    unfold build_sync_results
    rw [build_fold_fst]
    rw [List.nil_append]
    exact map_zip_from songs results

/-- A fixed outcome assignment for the C3 witness. -/
def outcomeSample : Nat → Option MatchResult × Bool := fun i =>
  if i = 0 then (some default, true) else (none, false)

/-- Witness for C3 with three entries completing in exactly reverse order. -/
theorem c3_order_preservation_witness :
    (asCompletedLoop 3 ([2, 1, 0].map (fun i => (i, outcomeSample i)))).1 =
      (List.range 3).map (fun i => (outcomeSample i).1) ∧
    (∀ (songs : List Song) (results : List (Option MatchResult)),
      (build_sync_results songs results).1 =
        List.zipWith SyncResult.from_song_and_spotify songs results) :=
  c3_order_preservation 3 outcomeSample [2, 1, 0] (by decide)

/-- True when every cache-hit callback precedes every cache-miss callback in
the trace (the flag sequence is hits first, then misses only). -/
def flagsHitsFirst : List Bool → Bool
  | [] => true
  | b :: rest => if b then flagsHitsFirst rest else rest.all (fun x => x = false)

/-- The hits-before-misses progress-callback property claimed by the spec. -/
def hits_before_misses (trace : List SearchEvent) : Bool :=
  flagsHitsFirst (trace.map (fun ev => ev.2.2))

/-- A second chart entry, already present in the cache for the C2 run. -/
def songB : Song :=
  { position := 2, name := "B", duration := "3:10", artists := "Y",
    artist_list := ["Y"], url := "" }

/-- The cached match for `songB`. -/
def cachedB : MatchResult :=
  { spotify_name := "B", spotify_artist := "Y", spotify_album := "AlbumB",
    spotify_duration := "3:10", spotify_url := "urlB", popularity := 50,
    track_uri := "uriB", match_score := 1 }

/-- A search cache holding `songB` (fresh) and nothing else. -/
def cacheWithB : SpotifyCache :=
  { entries := [(make_key "B" "Y", ⟨some cachedB, some 0⟩)],
    persisted := [(make_key "B" "Y", ⟨some cachedB, some 0⟩)],
    pending_writes := 0, ttl_minutes := 1440, batch_size := 10 }

/-- C2 counterexample: the code does not partition cached entries from
misses — every entry is submitted to the pool, cache hits are resolved
inside workers, and the callback fires in completion order.  With entry 0
uncached, entry 1 cached, and completion order `[0, 1]`, the first callback
is the cache-miss result and the cache-hit callback comes second, refuting
"all cache hits are reported before any miss result". -/
theorem c2_counterexample :
    (search_songs_concurrent (fun _ => none) cacheWithB 0 [sampleSong, songB] [0, 1]).2.1 =
      [(0, none, false), (1, some cachedB, true)] ∧
    hits_before_misses
      ((search_songs_concurrent (fun _ => none) cacheWithB 0
        [sampleSong, songB] [0, 1]).2.1) = false := by
  constructor <;> decide

theorem runWorkers_indices (single : Song → Option MatchResult) (now : Int)
    (songs : List Song) (schedule : List Nat) :
    ∀ (acc : List SearchEvent) (c : SpotifyCache) (calls : Nat),
      ((schedule.foldl (fun acc i =>
        let r := search_with_index single acc.2.1 now i (songs.getD i default)
        (acc.1 ++ [r.1], r.2.1, acc.2.2 + r.2.2)) (acc, c, calls)).1).map (fun ev => ev.1) =
        acc.map (fun ev => ev.1) ++ schedule := by
  induction schedule with
  | nil => intro acc c calls; simp
  | cons i rest ih =>
    intro acc c calls
    rw [List.foldl_cons]
    dsimp only
    rw [ih]
    simp
    rfl

/-- C2 (amended): no entry is resolved before dispatch — all entries,
cached or not, are submitted to the worker pool in input order and resolved
inside workers; the progress callback fires once per entry in future
completion order (the trace is exactly the completed-futures list, its
indices the completion schedule), so cache hits and misses interleave
arbitrarily rather than hits-first. -/
theorem c2_amended_dispatch (single : Song → Option MatchResult) (c : SpotifyCache)
    (now : Int) (songs : List Song) (schedule : List Nat) :
    (search_songs_concurrent single c now songs schedule).2.1 =
      (runWorkers single c now songs schedule).1 ∧
    ((search_songs_concurrent single c now songs schedule).2.1).map (fun ev => ev.1) =
      schedule := by
  have htrace : (search_songs_concurrent single c now songs schedule).2.1 =
      (runWorkers single c now songs schedule).1 := by
    unfold search_songs_concurrent
    dsimp only
    rw [asCompletedLoop_eq]
  refine ⟨htrace, ?_⟩
  rw [htrace]
  unfold runWorkers
  rw [runWorkers_indices]
  simp

/-! ## The trending playlist order (src/workflow.py, lines 191-222) -/

/-- The `normalize` closure of `sync_to_playlists` (src/workflow.py lines
203-206): min-max normalization, 0 when all values coincide. -/
def normalize (value min_val max_val : ℚ) : ℚ :=
  if max_val = min_val then 0 else (value - min_val) / (max_val - min_val)

/-- Python `min(list)` on a nonempty integer list (the empty case is
unreachable behind the `if found_results:` guard). -/
def listMinInt : List Int → Int
  | [] => 0
  | x :: xs => xs.foldl min x

/-- Python `max(list)` on a nonempty integer list. -/
def listMaxInt : List Int → Int
  | [] => 0
  | x :: xs => xs.foldl max x

/-- The `found_results` filter (src/workflow.py line 193). -/
def found_results (results : List SyncResult) : List SyncResult :=
  results.filter (fun r => r.found)

/-- The trending sort key (src/workflow.py lines 209-215): normalized rank
plus normalized popularity, with the min/max taken over the matched
entries. -/
def trendingKey (found : List SyncResult) (r : SyncResult) : ℚ :=
  normalize (r.rank : ℚ) ((listMinInt (found.map (fun x => x.rank)) : Int) : ℚ)
    ((listMaxInt (found.map (fun x => x.rank)) : Int) : ℚ) +
  normalize (r.popularity : ℚ) ((listMinInt (found.map (fun x => x.popularity)) : Int) : ℚ)
    ((listMaxInt (found.map (fun x => x.popularity)) : Int) : ℚ)

/-- The trending ordering (src/workflow.py lines 192-216): matched entries
only, sorted ascending by the trending key with Python's stable sort. -/
def trending_sort (results : List SyncResult) : List SyncResult :=
  let found := found_results results
  found.mergeSort (fun a b => trendingKey found a ≤ trendingKey found b)

theorem foldl_min_const (e : Int) (xs : List Int) (h : ∀ x ∈ xs, x = e) :
    xs.foldl min e = e := by
  induction xs with
  | nil => rfl
  | cons y ys ih =>
    rw [List.foldl_cons, h y (List.mem_cons_self y ys), min_self]
    exact ih (fun x hx => h x (List.mem_cons_of_mem y hx))

theorem foldl_max_const (e : Int) (xs : List Int) (h : ∀ x ∈ xs, x = e) :
    xs.foldl max e = e := by
  induction xs with
  | nil => rfl
  | cons y ys ih =>
    rw [List.foldl_cons, h y (List.mem_cons_self y ys), max_self]
    exact ih (fun x hx => h x (List.mem_cons_of_mem y hx))

theorem listMinMax_const (l : List Int) (e : Int) (h : ∀ x ∈ l, x = e) :
    listMinInt l = listMaxInt l := by
  rcases l with _ | ⟨x, xs⟩
  · rfl
  · have hx : x = e := h x (List.mem_cons_self x xs)
    have hxs : ∀ y ∈ xs, y = e := fun y hy => h y (List.mem_cons_of_mem x hy)
    rw [listMinInt, listMaxInt, hx, foldl_min_const e xs hxs, foldl_max_const e xs hxs]

/-- C7: the trending order is computed over matched entries only, sorting
ascending by the sum of min-max-normalized rank and popularity; when all
matched entries share a popularity (resp. rank), the key degenerates to the
normalized rank (resp. popularity) alone, so score differences come only
from the varying metric; and when all matched entries share both rank and
popularity every normalized term is 0 and the stable sort returns the
matched entries in their original relative order. -/
theorem c7_trending_normalization (results : List SyncResult) :
    ((trending_sort results).Perm (found_results results) ∧
     (trending_sort results).Pairwise (fun a b =>
       trendingKey (found_results results) a ≤ trendingKey (found_results results) b)) ∧
    (∀ p : Int, (∀ r ∈ found_results results, r.popularity = p) →
      ∀ r ∈ found_results results,
        trendingKey (found_results results) r =
          normalize (r.rank : ℚ)
            ((listMinInt ((found_results results).map (fun x => x.rank)) : Int) : ℚ)
            ((listMaxInt ((found_results results).map (fun x => x.rank)) : Int) : ℚ)) ∧
    (∀ rk : Int, (∀ r ∈ found_results results, r.rank = rk) →
      ∀ r ∈ found_results results,
        trendingKey (found_results results) r =
          normalize (r.popularity : ℚ)
            ((listMinInt ((found_results results).map (fun x => x.popularity)) : Int) : ℚ)
            ((listMaxInt ((found_results results).map (fun x => x.popularity)) : Int) : ℚ)) ∧
    (∀ rk p : Int, (∀ r ∈ found_results results, r.rank = rk ∧ r.popularity = p) →
      (∀ r ∈ found_results results, trendingKey (found_results results) r = 0) ∧
      trending_sort results = found_results results) := by
  have hpopconst : ∀ p : Int, (∀ r ∈ found_results results, r.popularity = p) →
      ∀ r ∈ found_results results,
        normalize (r.popularity : ℚ)
          ((listMinInt ((found_results results).map (fun x => x.popularity)) : Int) : ℚ)
          ((listMaxInt ((found_results results).map (fun x => x.popularity)) : Int) : ℚ) = 0 := by
    intro p hp r _
    have heq : listMinInt ((found_results results).map (fun x => x.popularity)) =
        listMaxInt ((found_results results).map (fun x => x.popularity)) := by
      apply listMinMax_const _ p
      intro x hx
      rcases List.mem_map.1 hx with ⟨s, hs, rfl⟩
      exact hp s hs
    unfold normalize
    rw [if_pos (by exact_mod_cast heq.symm)]
  have hrankconst : ∀ rk : Int, (∀ r ∈ found_results results, r.rank = rk) →
      ∀ r ∈ found_results results,
        normalize (r.rank : ℚ)
          ((listMinInt ((found_results results).map (fun x => x.rank)) : Int) : ℚ)
          ((listMaxInt ((found_results results).map (fun x => x.rank)) : Int) : ℚ) = 0 := by
    intro rk hrk r _
    have heq : listMinInt ((found_results results).map (fun x => x.rank)) =
        listMaxInt ((found_results results).map (fun x => x.rank)) := by
      apply listMinMax_const _ rk
      intro x hx
      rcases List.mem_map.1 hx with ⟨s, hs, rfl⟩
      exact hrk s hs
    unfold normalize
    rw [if_pos (by exact_mod_cast heq.symm)]
  refine ⟨⟨?_, ?_⟩, ?_, ?_, ?_⟩
  · unfold trending_sort
    exact List.mergeSort_perm _ _
  · unfold trending_sort
    dsimp only
    have htrans : ∀ a b c : SyncResult,
        (decide (trendingKey (found_results results) a ≤ trendingKey (found_results results) b)) = true →
        (decide (trendingKey (found_results results) b ≤ trendingKey (found_results results) c)) = true →
        (decide (trendingKey (found_results results) a ≤ trendingKey (found_results results) c)) = true := by
      intro a b c hab hbc
      simp only [decide_eq_true_eq] at hab hbc ⊢
      exact le_trans hab hbc
    have htotal : ∀ a b : SyncResult,
        ((decide (trendingKey (found_results results) a ≤ trendingKey (found_results results) b)) ||
         (decide (trendingKey (found_results results) b ≤ trendingKey (found_results results) a))) = true := by
      intro a b
      simp only [Bool.or_eq_true, decide_eq_true_eq]
      exact le_total _ _
    have := List.sorted_mergeSort htrans htotal (found_results results)
    exact this.imp (fun h => by simpa using h)
  · intro p hp r hr
    unfold trendingKey
    rw [hpopconst p hp r hr, add_zero]
  · intro rk hrk r hr
    unfold trendingKey
    rw [hrankconst rk hrk r hr, zero_add]
  · intro rk p hall
    have hkey : ∀ r ∈ found_results results, trendingKey (found_results results) r = 0 := by
      intro r hr
      unfold trendingKey
      rw [hpopconst p (fun s hs => (hall s hs).2) r hr,
        hrankconst rk (fun s hs => (hall s hs).1) r hr, add_zero]
    refine ⟨hkey, ?_⟩
    unfold trending_sort
    dsimp only
    apply List.mergeSort_of_sorted
    apply List.pairwise_of_forall_mem_list
    intro a ha b hb
    rw [hkey a ha, hkey b hb]
    simp

/-- Two matched entries sharing rank and popularity, for the C7 witness. -/
def sampleTrendResults : List SyncResult :=
  [{ rank := 1, song_name := "A", artists := "X", duration := "3:00", zing_url := "",
     spotify_name := "A", spotify_artist := "X", spotify_album := "", spotify_duration := "3:00",
     spotify_url := "uA", popularity := 50, match_score := 1, track_uri := "tA" },
   { rank := 1, song_name := "B", artists := "Y", duration := "3:10", zing_url := "",
     spotify_name := "B", spotify_artist := "Y", spotify_album := "", spotify_duration := "3:10",
     spotify_url := "uB", popularity := 50, match_score := 1, track_uri := "tB" }]

/-- Witness for C7 on two matched entries sharing rank 1 and popularity 50:
every key is 0 and the stable sort preserves the original relative order. -/
theorem c7_trending_normalization_witness :
    (trending_sort sampleTrendResults).Perm (found_results sampleTrendResults) ∧
    (∀ r ∈ found_results sampleTrendResults,
      trendingKey (found_results sampleTrendResults) r = 0) ∧
    trending_sort sampleTrendResults = found_results sampleTrendResults :=
  ⟨(c7_trending_normalization sampleTrendResults).1.1,
   ((c7_trending_normalization sampleTrendResults).2.2.2 1 50 (by decide)).1,
   ((c7_trending_normalization sampleTrendResults).2.2.2 1 50 (by decide)).2⟩

/-! ## Proxy validation (src/proxy.py, lines 155-193)

The HTTP GET through the candidate proxy is an oracle `HttpOutcome`: a
response with its status code and body text, or a raised
`requests.exceptions.RequestException`.  The wall-clock latency measurement
is outside the embedding; the measured `elapsed_ms` value is a parameter
that `_test_proxy_for_content` reports unchanged. -/

/-- Outcome of the proxied HTTP GET. -/
inductive HttpOutcome where
  | success (status : Nat) (body : String)
  | failure
  deriving DecidableEq

/-- `fetch_with_proxy` (src/proxy.py lines 155-177): the body text on a 200
response, `None` on any other status or on a request exception. -/
def fetch_with_proxy (resp : HttpOutcome) : Option String :=
  match resp with
  | .success status body => if status = 200 then some body else none
  | .failure => none

/-- Whether the needle occurs at the head of the haystack. -/
def matchesAt : List Char → List Char → Bool
  | [], _ => true
  | _ :: _, [] => false
  | a :: as, b :: bs => a = b && matchesAt as bs

/-- Whether the needle occurs anywhere in the haystack. -/
def containsSeq : List Char → List Char → Bool
  | needle, [] => needle.isEmpty
  | needle, c :: rest => matchesAt needle (c :: rest) || containsSeq needle rest

/-- Python `needle in haystack` on strings. -/
def strContains (haystack needle : String) : Bool :=
  containsSeq needle.toList haystack.toList

/-- `_test_proxy_for_content` (src/proxy.py lines 180-193; leading
underscore dropped): fetch through the proxy and accept iff the body is
truthy (nonempty), contains the signature, and is at least `min_size` long;
the measured elapsed time is reported either way. -/
def test_proxy_for_content (resp : HttpOutcome) (content_check : String)
    (min_size : Nat) (elapsed_ms : Int) : Option String × Int :=
  match fetch_with_proxy resp with
  | some html =>
    if html ≠ "" ∧ strContains html content_check = true ∧ min_size ≤ html.length then
      (some html, elapsed_ms)
    else (none, elapsed_ms)
  | none => (none, elapsed_ms)

/-- The C9 claim as stated, at a given response: validation succeeds iff the
status is OK, the body contains the signature, and the body length is at
least the minimum. -/
def c9_claim_statement (status : Nat) (body check : String) (min_size : Nat) : Prop :=
  ((test_proxy_for_content (HttpOutcome.success status body) check min_size 0).1 ≠ none) ↔
    (status = 200 ∧ strContains body check = true ∧ min_size ≤ body.length)

/-- C9 counterexample: an OK response with an empty body, signature `""` and
minimum size 0 satisfies all three claimed success conditions, yet the code
rejects it — Python's truthiness test `if html` also requires a nonempty
body. -/
theorem c9_counterexample : ¬ c9_claim_statement 200 "" "" 0 := by
  unfold c9_claim_statement
  decide

/-- C9 (amended): validation succeeds iff the HTTP GET through the proxy
returns status 200 with a nonempty body that contains the content signature
as a substring and is at least the minimum body size long; the reported
latency is the measured round-trip value, passed through unchanged. -/
theorem c9_amended_validation (resp : HttpOutcome) (check : String)
    (min_size : Nat) (ms : Int) :
    ((test_proxy_for_content resp check min_size ms).1 ≠ none ↔
      ∃ body, resp = HttpOutcome.success 200 body ∧ body ≠ "" ∧
        strContains body check = true ∧ min_size ≤ body.length) ∧
    (test_proxy_for_content resp check min_size ms).2 = ms := by
  cases resp with
  | failure =>
    refine ⟨?_, rfl⟩
    constructor
    · intro h
      exact absurd rfl h
    · rintro ⟨b, heq, -⟩
      exact HttpOutcome.noConfusion heq
  | success status body =>
    by_cases hs : status = 200
    · subst hs
      by_cases hcond : body ≠ "" ∧ strContains body check = true ∧ min_size ≤ body.length
      · have heval : test_proxy_for_content (HttpOutcome.success 200 body)
            check min_size ms = (some body, ms) := by
          unfold test_proxy_for_content fetch_with_proxy
          dsimp only
          rw [if_pos rfl]
          dsimp only
          rw [if_pos hcond]
        rw [heval]
        refine ⟨?_, rfl⟩
        constructor
        · intro _
          exact ⟨body, rfl, hcond⟩
        · intro _
          simp
      · have heval : test_proxy_for_content (HttpOutcome.success 200 body)
            check min_size ms = (none, ms) := by
          unfold test_proxy_for_content fetch_with_proxy
          dsimp only
          rw [if_pos rfl]
          dsimp only
          rw [if_neg hcond]
        rw [heval]
        refine ⟨?_, rfl⟩
        constructor
        · intro h
          exact absurd rfl h
        · rintro ⟨b, heq, hb⟩
          injection heq with h1 h2
          subst h2
          exact (hcond hb).elim
    · have heval : test_proxy_for_content (HttpOutcome.success status body)
          check min_size ms = (none, ms) := by
        unfold test_proxy_for_content fetch_with_proxy
        dsimp only
        rw [if_neg hs]
      rw [heval]
      refine ⟨?_, rfl⟩
      constructor
      · intro h
        exact absurd rfl h
      · rintro ⟨b, heq, -⟩
        injection heq with h1 h2
        exact (hs h1).elim

end GetLinkSpotify
